import Mathlib

/-!
Verification of the hook-wrapper core of `bootstrap/hook.go`.

The file embeds, as executable Lean definitions, the data model and the
operations of the hook script wrapper: environment snapshots and their
diffing, the dump-file decoder, the generated wrapper scripts for the two
platforms and their semantics, the temporary-file lifecycle of
`newHookScriptWrapper` / `Path` / `Close` / `ChangedEnvironment`.

Functions of this repository that live outside the translated source file
(the `env` package and the `shell` helpers) are modelled from the spec and
carry a doc comment saying so.
-/

set_option maxHeartbeats 1000000

/-- The sentinel exit-status variable written by the generated wrapper
script and stripped from the returned diff. -/
def sentinelVar : String := "BUILDKITE_LAST_HOOK_EXIT_STATUS"

/-- An environment snapshot: a finite mapping from variable names to
values, represented as an association list.  Decoded snapshots have
pairwise distinct keys. -/
abbrev Environment := List (String × String)

/-- Keys of a snapshot. -/
def keysOf (e : Environment) : List String := e.map Prod.fst

/-- A snapshot is well formed when its keys are pairwise distinct. -/
def NodupKeys (e : Environment) : Prop := (keysOf e).Nodup

/-- Modelled from the spec: lookup of a variable in a snapshot, the
`Environment.Get` of the repository's `env` package (not under src/). -/
def Environment.Get : Environment → String → Option String
  | [], _ => none
  | (k', v') :: rest, k => if k' = k then some v' else Environment.Get rest k

/-- Modelled from the spec: overwrite-or-add of a variable, the
`Environment.Set` of the repository's `env` package (not under src/);
last-seen value wins, mirroring shell re-export semantics. -/
def Environment.Set : Environment → String → String → Environment
  | [], k, v => [(k, v)]
  | (k', v') :: rest, k, v =>
    if k' = k then (k, v) :: rest else (k', v') :: Environment.Set rest k v

/-- Modelled from the spec: removal of a variable, the
`Environment.Remove` of the repository's `env` package (not under src/). -/
def Environment.Remove (e : Environment) (k : String) : Environment :=
  e.filter (fun q => q.1 != k)

/-- Modelled from the spec: `Environment.Diff` of the repository's `env`
package (not under src/).  For every name present in the receiver, the
result keeps `name -> value` when the name is absent from `other` or bound
there to a different value. -/
def Environment.Diff (e other : Environment) : Environment :=
  e.filter (fun q =>
    match Environment.Get other q.1 with
    | some w => q.2 != w
    | none => true)

theorem get_eq_none_iff (e : Environment) (k : String) :
    Environment.Get e k = none ↔ k ∉ keysOf e := by
  induction e with
  | nil => simp [Environment.Get, keysOf]
  | cons hd tl ih =>
    obtain ⟨k', v'⟩ := hd
    by_cases h : k' = k
    · subst h
      simp [Environment.Get, keysOf]
    · simp [Environment.Get, h, keysOf, Ne.symm h] at ih ⊢
      exact ih

theorem keys_filter_sublist (e : Environment) (p : String × String → Bool) :
    (keysOf (e.filter p)).Sublist (keysOf e) :=
  List.Sublist.map Prod.fst (List.filter_sublist e)

theorem nodupKeys_filter (e : Environment) (p : String × String → Bool)
    (h : NodupKeys e) : NodupKeys (e.filter p) :=
  List.Nodup.sublist (keys_filter_sublist e p) h

theorem get_none_filter (e : Environment) (p : String × String → Bool) (k : String)
    (h : Environment.Get e k = none) : Environment.Get (e.filter p) k = none := by
  rw [get_eq_none_iff] at h ⊢
  intro hmem
  exact h (List.Sublist.mem hmem (keys_filter_sublist e p))

theorem get_filter (e : Environment) (p : String × String → Bool) (k v : String)
    (hnd : NodupKeys e) :
    Environment.Get (e.filter p) k = some v ↔
      Environment.Get e k = some v ∧ p (k, v) = true := by
  induction e with
  | nil => simp [Environment.Get]
  | cons hd tl ih =>
    obtain ⟨k', v'⟩ := hd
    have hnd' : NodupKeys tl := by
      simp [NodupKeys, keysOf] at hnd ⊢
      exact hnd.2
    have hk' : k' ∉ keysOf tl := by
      simp [NodupKeys, keysOf] at hnd
      simpa [keysOf] using hnd.1
    by_cases hpk : p (k', v') = true
    · by_cases hkk : k' = k
      · subst hkk
        simp only [List.filter_cons, hpk, if_pos, Environment.Get, if_true]
        constructor
        · intro hv
          refine ⟨hv, ?_⟩
          have : v' = v := by simpa using hv
          rw [← this]
          exact hpk
        · intro hv
          exact hv.1
      · simp only [List.filter_cons, hpk, if_pos, Environment.Get, hkk, if_false]
        exact ih hnd'
    · have hpkf : p (k', v') = false := by simpa using hpk
      by_cases hkk : k' = k
      · subst hkk
        simp only [List.filter_cons, hpkf, Bool.false_eq_true, if_false, Environment.Get, if_true]
        have hnone : Environment.Get tl k' = none := by
          rw [get_eq_none_iff]; exact hk'
        rw [get_none_filter tl p k' hnone]
        constructor
        · intro h; exact absurd h (by simp)
        · rintro ⟨hv, hp⟩
          have : v' = v := by simpa using hv
          subst this
          rw [hp] at hpkf
          exact absurd hpkf (by simp)
      · simp only [List.filter_cons, hpkf, Bool.false_eq_true, if_false, Environment.Get, hkk,
          if_false]
        exact ih hnd'

theorem get_set_self (e : Environment) (k v : String) :
    Environment.Get (Environment.Set e k v) k = some v := by
  induction e with
  | nil => simp [Environment.Set, Environment.Get]
  | cons hd tl ih =>
    obtain ⟨k', v'⟩ := hd
    by_cases h : k' = k
    · simp [Environment.Set, h, Environment.Get]
    · simp [Environment.Set, h, Environment.Get, ih]

theorem mem_keys_set (e : Environment) (k v a : String)
    (h : a ∈ keysOf (Environment.Set e k v)) : a = k ∨ a ∈ keysOf e := by
  induction e with
  | nil => simpa [Environment.Set, keysOf] using h
  | cons hd tl ih =>
    obtain ⟨k', v'⟩ := hd
    by_cases hk : k' = k
    · subst hk
      simp [Environment.Set, keysOf] at h
      rcases h with h | h
      · exact Or.inl h
      · exact Or.inr (by simp [keysOf, h])
    · simp [Environment.Set, hk, keysOf] at h
      rcases h with h | h
      · exact Or.inr (by simp [keysOf, h])
      · rcases ih (by simpa [keysOf] using h) with h' | h'
        · exact Or.inl h'
        · exact Or.inr (by simp [keysOf]; right; simpa [keysOf] using h')

theorem nodupKeys_set (e : Environment) (k v : String) (h : NodupKeys e) :
    NodupKeys (Environment.Set e k v) := by
  induction e with
  | nil => simp [Environment.Set, NodupKeys, keysOf]
  | cons hd tl ih =>
    obtain ⟨k', v'⟩ := hd
    have h1 : k' ∉ keysOf tl := by
      simp [NodupKeys, keysOf] at h
      simpa [keysOf] using h.1
    have h2 : NodupKeys tl := by
      simp [NodupKeys, keysOf] at h
      exact h.2
    by_cases hk : k' = k
    · subst hk
      simp [Environment.Set, NodupKeys, keysOf] at h ⊢
      exact h
    · simp only [Environment.Set, hk, if_false]
      have hnd2 : NodupKeys (Environment.Set tl k v) := ih h2
      have hnotin : k' ∉ keysOf (Environment.Set tl k v) := by
        intro hmem
        rcases mem_keys_set tl k v k' hmem with h' | h'
        · exact hk h'
        · exact h1 h'
      show (keysOf ((k', v') :: Environment.Set tl k v)).Nodup
      have hkeq : keysOf ((k', v') :: Environment.Set tl k v) =
          k' :: keysOf (Environment.Set tl k v) := rfl
      rw [hkeq, List.nodup_cons]
      exact ⟨hnotin, hnd2⟩

/-- Modelled from the spec: first-line format detection of the repository's
`env.FromExport` decoder (not under src/).  POSIX dumps consist of
export-style declarations; anything else is treated as the Windows
`NAME=value` listing. -/
def lineIsExport (l : String) : Bool :=
  l.startsWith "export " || l.startsWith "declare -x "

/-- Modelled from the spec: split a declaration at its first equals sign;
declarations without one are malformed and get skipped. -/
def splitEq (s : String) : Option (String × String) :=
  match s.splitOn "=" with
  | [] => none
  | [_] => none
  | k :: rest => some (k, String.intercalate "=" rest)

/-- Modelled from the spec: Windows branch of the decoder, one
`NAME=value` per line, malformed lines skipped, last-seen value wins. -/
def windowsAddLine (env : Environment) (l : String) : Environment :=
  match splitEq l with
  | some (k, v) => if k = "" then env else Environment.Set env k v
  | none => env

/-- Modelled from the spec: POSIX branch of the decoder.  Values are
shell-quoted and may contain literal newlines, so the decoder carries the
open declaration (name and the value lines read so far) across lines
instead of treating every line independently; malformed lines are
skipped. -/
def posixAddLine (st : Environment × Option (String × String)) (l : String) :
    Environment × Option (String × String) :=
  match st with
  | (env, some (k, acc)) =>
    if l.endsWith "\"" then
      (Environment.Set env k (acc ++ "\n" ++ l.dropRight 1), none)
    else
      (env, some (k, acc ++ "\n" ++ l))
  | (env, none) =>
    if lineIsExport l then
      let decl := if l.startsWith "export " then l.drop 7 else l.drop 11
      match splitEq decl with
      | none => (env, none)
      | some (k, v) =>
        if v.startsWith "\"" then
          if v.endsWith "\"" && v.length ≥ 2 then
            (Environment.Set env k ((v.drop 1).dropRight 1), none)
          else
            (env, some (k, v.drop 1))
        else
          (Environment.Set env k v, none)
    else
      (env, none)

/-- Modelled from the spec: the repository's `env.FromExport` (package
`env`, not under src/).  Decodes the raw text of a dump file into a
snapshot; the decode is total, bad lines are skipped rather than aborting,
and duplicate declarations resolve to the last-seen value. -/
def FromExport (body : String) : Environment :=
  let lines := body.splitOn "\n"
  match lines with
  | [] => []
  | l0 :: _ =>
    if lineIsExport l0 then (lines.foldl posixAddLine ([], none)).1
    else lines.foldl windowsAddLine []

theorem nodupKeys_windowsAddLine (env : Environment) (l : String)
    (h : NodupKeys env) : NodupKeys (windowsAddLine env l) := by
  unfold windowsAddLine
  rcases splitEq l with _ | ⟨k, v⟩
  · exact h
  · by_cases hk : k = ""
    · simpa [hk] using h
    · simpa [hk] using nodupKeys_set env k v h

theorem nodupKeys_posixAddLine (st : Environment × Option (String × String)) (l : String)
    (h : NodupKeys st.1) : NodupKeys ((posixAddLine st l).1) := by
  obtain ⟨env, op⟩ := st
  rcases op with _ | ⟨k, acc⟩
  · unfold posixAddLine
    by_cases he : lineIsExport l
    · simp only [he, if_true]
      rcases hsp : splitEq (if l.startsWith "export " then l.drop 7 else l.drop 11) with _ | ⟨k, v⟩
      · exact h
      · by_cases hq : v.startsWith "\""
        · by_cases hc : v.endsWith "\"" && v.length ≥ 2
          · simpa [hq, hc] using nodupKeys_set env k ((v.drop 1).dropRight 1) h
          · simpa [hq, hc] using h
        · simpa [hq] using nodupKeys_set env k v h
    · simpa [he] using h
  · unfold posixAddLine
    by_cases he : l.endsWith "\""
    · simpa [he] using nodupKeys_set env k (acc ++ "\n" ++ l.dropRight 1) h
    · simpa [he] using h

theorem nodupKeys_posixFold (lines : List String)
    (st : Environment × Option (String × String)) (h : NodupKeys st.1) :
    NodupKeys ((lines.foldl posixAddLine st).1) := by
  induction lines generalizing st with
  | nil => exact h
  | cons l rest ih =>
    exact ih (posixAddLine st l) (nodupKeys_posixAddLine st l h)

theorem nodupKeys_windowsFold (lines : List String) (env : Environment)
    (h : NodupKeys env) : NodupKeys (lines.foldl windowsAddLine env) := by
  induction lines generalizing env with
  | nil => exact h
  | cons l rest ih =>
    exact ih (windowsAddLine env l) (nodupKeys_windowsAddLine env l h)

theorem nodupKeys_fromExport (body : String) : NodupKeys (FromExport body) := by
  unfold FromExport
  have hnil : NodupKeys ([] : Environment) := by simp [NodupKeys, keysOf]
  rcases body.splitOn "\n" with _ | ⟨l0, rest⟩
  · exact hnil
  · by_cases he : lineIsExport l0
    · simpa [he] using nodupKeys_posixFold (l0 :: rest) ([], none) hnil
    · simpa [he] using nodupKeys_windowsFold (l0 :: rest) [] hnil

/-- A filesystem: a finite mapping from paths to file contents, again an
association list (reusing the snapshot operations for writes). -/
abbrev FS := List (String × String)

/-- The `hookScriptWrapper` of the source: the hook path given to the
constructor and the names of the three temporary files it owns (the Go
struct holds the `os.File` handles; after construction only their names
are ever used). -/
structure hookScriptWrapper where
  hookPath : String
  scriptPath : String
  beforeEnvPath : String
  afterEnvPath : String
deriving DecidableEq, Repr

/-- Path returns the path to the wrapper script, the one that should be
executed (`h.scriptFile.Name()` in the source). -/
def hookScriptWrapper.Path (h : hookScriptWrapper) : String := h.scriptPath

/-- Model of `os.Remove`: deletes the path when it exists, otherwise
leaves the filesystem alone and reports a not-found error. -/
def os_Remove (fs : FS) (p : String) : FS × Option String :=
  if (Environment.Get fs p).isSome then
    (fs.filter (fun q => q.1 != p), none)
  else
    (fs, some ("remove " ++ p ++ ": no such file or directory"))

/-- Close cleans up the wrapper script and the environment files: three
`os.Remove` calls whose error results the source discards.  The second
component is the list of diagnostics Close surfaces to its caller, which
is empty because the Go function returns nothing and logs nothing. -/
def Close (fs : FS) (h : hookScriptWrapper) : FS × List String :=
  let r1 := os_Remove fs h.scriptPath
  let r2 := os_Remove r1.1 h.beforeEnvPath
  let r3 := os_Remove r2.1 h.afterEnvPath
  (r3.1, [])

/-- Model of `ioutil.ReadFile`: returns the contents when the path exists
and an error otherwise, leaving the filesystem untouched. -/
def ioutilReadFile (fs : FS) (p : String) : Except String String × FS :=
  (match Environment.Get fs p with
   | some c => Except.ok c
   | none => Except.error ("open " ++ p ++ ": no such file or directory"), fs)

/-- ChangedEnvironment, state-passing form: reads the two dump files,
decodes both, strips the sentinel exit-status variable from the after
snapshot and diffs it against the before snapshot.  The filesystem is
threaded through every primitive the source invokes (two reads). -/
def ChangedEnvironmentS (fs : FS) (h : hookScriptWrapper) :
    Except String Environment × FS :=
  match ioutilReadFile fs h.beforeEnvPath with
  | (Except.error e, fs1) =>
    (Except.error ("Failed to read \"" ++ h.beforeEnvPath ++ "\" (" ++ e ++ ")"), fs1)
  | (Except.ok beforeEnvContents, fs1) =>
    match ioutilReadFile fs1 h.afterEnvPath with
    | (Except.error e, fs2) =>
      (Except.error ("Failed to read \"" ++ h.afterEnvPath ++ "\" (" ++ e ++ ")"), fs2)
    | (Except.ok afterEnvContents, fs2) =>
      (Except.ok (Environment.Diff
          (Environment.Remove (FromExport afterEnvContents) sentinelVar)
          (FromExport beforeEnvContents)), fs2)

/-- ChangedEnvironment returns the environment variables exported during
the hook run (the result component of the state-passing form). -/
def ChangedEnvironment (fs : FS) (h : hookScriptWrapper) :
    Except String Environment :=
  (ChangedEnvironmentS fs h).1

theorem get_filter_ne_self (fs : FS) (p : String) :
    Environment.Get (fs.filter (fun q => q.1 != p)) p = none := by
  induction fs with
  | nil => simp [Environment.Get]
  | cons hd tl ih =>
    obtain ⟨k', v'⟩ := hd
    by_cases h : k' = p
    · simpa [List.filter_cons, h] using ih
    · simpa [List.filter_cons, h, Environment.Get] using ih

theorem get_osRemove_self (fs : FS) (p : String) :
    Environment.Get (os_Remove fs p).1 p = none := by
  unfold os_Remove
  by_cases h : (Environment.Get fs p).isSome
  · simpa [h] using get_filter_ne_self fs p
  · simp only [h, Bool.false_eq_true, if_false]
    rcases hg : Environment.Get fs p with _ | c
    · rfl
    · rw [hg] at h
      simp at h

theorem get_osRemove_none (fs : FS) (p k : String)
    (h : Environment.Get fs k = none) :
    Environment.Get (os_Remove fs p).1 k = none := by
  unfold os_Remove
  by_cases hs : (Environment.Get fs p).isSome
  · simpa [hs] using get_none_filter fs (fun q => q.1 != p) k h
  · simpa [hs] using h

/-- ASCII digit character for a value below ten. -/
def digitChar (d : Nat) : Char := Char.ofNat (48 + d)

/-- Decimal digit characters of a number, fuel-indexed so the recursion is
structural; with fuel above the digit count it yields the usual
most-significant-first decimal representation. -/
def decRepAux : Nat → Nat → List Char
  | 0, _ => []
  | fuel + 1, n =>
    if n < 10 then [digitChar n]
    else decRepAux fuel (n / 10) ++ [digitChar (n % 10)]

/-- Decimal string of a natural number, as a shell stores `$?` in a
variable. -/
def decRep (n : Nat) : String := String.mk (decRepAux (n + 1) n)

/-- Value of a decimal digit string, accumulator form. -/
def decValAux : List Char → Nat → Nat
  | [], acc => acc
  | c :: cs, acc => decValAux cs (acc * 10 + (c.toNat - 48))

/-- Numeric value of a decimal string, as a shell evaluates `exit $VAR`. -/
def decVal (s : String) : Nat := decValAux s.data 0

theorem digitChar_toNat : ∀ d : Fin 10, (digitChar (d : Nat)).toNat = 48 + (d : Nat) := by
  decide

theorem decValAux_append (l1 l2 : List Char) (acc : Nat) :
    decValAux (l1 ++ l2) acc = decValAux l2 (decValAux l1 acc) := by
  induction l1 generalizing acc with
  | nil => rfl
  | cons c cs ih => simp [decValAux, ih]

theorem decValAux_decRepAux (fuel : Nat) :
    ∀ n acc, 1 ≤ fuel → n < 10 ^ fuel →
      decValAux (decRepAux fuel n) acc = acc * 10 ^ (decRepAux fuel n).length + n := by
  induction fuel with
  | zero => intro n acc h; omega
  | succ fuel ih =>
    intro n acc _ h
    by_cases h10 : n < 10
    · have hd := digitChar_toNat ⟨n, h10⟩
      simp only [Fin.val_mk] at hd
      simp [decRepAux, h10, decValAux, hd]
    · have hf1 : 1 ≤ fuel := by
        rcases Nat.eq_zero_or_pos fuel with h0 | h1
        · subst h0; simp at h; omega
        · exact h1
      have hdiv : n / 10 < 10 ^ fuel := by
        rw [Nat.div_lt_iff_lt_mul (by norm_num)]
        calc n < 10 ^ (fuel + 1) := h
          _ = 10 ^ fuel * 10 := by ring
      simp only [decRepAux, h10, if_false]
      rw [decValAux_append, ih (n / 10) acc hf1 hdiv]
      have hd := digitChar_toNat ⟨n % 10, Nat.mod_lt _ (by norm_num)⟩
      simp only [Fin.val_mk] at hd
      simp only [decValAux, hd, List.length_append, List.length_singleton]
      rw [pow_succ, ← Nat.mul_assoc]
      have hnm := Nat.div_add_mod n 10
      generalize acc * 10 ^ (decRepAux fuel (n / 10)).length = A
      omega

theorem decVal_decRep (n : Nat) : decVal (decRep n) = n := by
  have hpow : n < 10 ^ (n + 1) := by
    calc n < 10 ^ n := Nat.lt_pow_self (by norm_num) n
      _ ≤ 10 ^ (n + 1) := Nat.pow_le_pow_right (by norm_num) (by omega)
  simpa [decVal, decRep] using decValAux_decRepAux (n + 1) n 0 (by omega) hpow

/-- The POSIX wrapper script text built by `newHookScriptWrapper` when the
platform is not windows, transcribed atom by atom from the source string
concatenation (the sentinel name appears inline there; `sentinelVar` holds
that exact literal). -/
def posixHookScript (absolutePathToHook beforeEnvPath afterEnvPath : String) : String :=
  "#!/bin/bash\n" ++
  "export -p > \"" ++ beforeEnvPath ++ "\"\n" ++
  ". \"" ++ absolutePathToHook ++ "\"\n" ++
  sentinelVar ++ "=$?\n" ++
  "export -p > \"" ++ afterEnvPath ++ "\"\n" ++
  "exit $" ++ sentinelVar

/-- The Windows wrapper script text built by `newHookScriptWrapper` when
`runtime.GOOS == "windows"`, transcribed atom by atom from the source. -/
def windowsHookScript (absolutePathToHook beforeEnvPath afterEnvPath : String) : String :=
  "@echo off\n" ++
  "SETLOCAL ENABLEDELAYEDEXPANSION\n" ++
  "SET > \"" ++ beforeEnvPath ++ "\"\n" ++
  "CALL \"" ++ absolutePathToHook ++ "\"\n" ++
  "SET " ++ sentinelVar ++ "=!ERRORLEVEL!\n" ++
  "SET > \"" ++ afterEnvPath ++ "\"\n" ++
  "EXIT %" ++ sentinelVar ++ "%"

/-- The platform branch of the script generator: windows command
interpreter syntax when the platform identifier is windows, POSIX shell
syntax otherwise (`runtime.GOOS` comparison in the source). -/
def hookScript (goos absolutePathToHook beforeEnvPath afterEnvPath : String) : String :=
  if goos == "windows" then
    windowsHookScript absolutePathToHook beforeEnvPath afterEnvPath
  else
    posixHookScript absolutePathToHook beforeEnvPath afterEnvPath

/-- Commands of the POSIX wrapper script. -/
inductive PosixCmd where
  | dumpExports (path : String)
  | sourceFile (path : String)
  | assignLastStatus (v : String)
  | exitWithVar (v : String)
deriving DecidableEq, Repr

/-- The five-step POSIX wrapper program: dump the environment to the
before path, source the hook, capture the exit status into the sentinel
variable, dump the environment to the after path, exit with the captured
status. -/
def posixProgram (hookPath beforeEnvPath afterEnvPath : String) : List PosixCmd :=
  [PosixCmd.dumpExports beforeEnvPath,
   PosixCmd.sourceFile hookPath,
   PosixCmd.assignLastStatus sentinelVar,
   PosixCmd.dumpExports afterEnvPath,
   PosixCmd.exitWithVar sentinelVar]

/-- POSIX shell text of one wrapper command (the final exit carries no
trailing newline, matching the generated script). -/
def renderPosixCmd : PosixCmd → String
  | PosixCmd.dumpExports p => "export -p > \"" ++ p ++ "\"\n"
  | PosixCmd.sourceFile p => ". \"" ++ p ++ "\"\n"
  | PosixCmd.assignLastStatus v => v ++ "=$?\n"
  | PosixCmd.exitWithVar v => "exit $" ++ v

/-- POSIX shell text of a wrapper program. -/
def renderPosixProgram : List PosixCmd → String
  | [] => ""
  | c :: rest => renderPosixCmd c ++ renderPosixProgram rest

/-- Commands of the Windows wrapper script. -/
inductive WinCmd where
  | echoOff
  | setlocalDelayed
  | dumpSet (path : String)
  | callFile (path : String)
  | setVarErrorlevel (v : String)
  | exitWithPercentVar (v : String)
deriving DecidableEq, Repr

/-- The Windows wrapper program: two interpreter directives followed by
the same dump, invoke, capture, dump, exit sequence. -/
def winProgram (hookPath beforeEnvPath afterEnvPath : String) : List WinCmd :=
  [WinCmd.echoOff,
   WinCmd.setlocalDelayed,
   WinCmd.dumpSet beforeEnvPath,
   WinCmd.callFile hookPath,
   WinCmd.setVarErrorlevel sentinelVar,
   WinCmd.dumpSet afterEnvPath,
   WinCmd.exitWithPercentVar sentinelVar]

/-- Windows command-interpreter text of one wrapper command. -/
def renderWinCmd : WinCmd → String
  | WinCmd.echoOff => "@echo off\n"
  | WinCmd.setlocalDelayed => "SETLOCAL ENABLEDELAYEDEXPANSION\n"
  | WinCmd.dumpSet p => "SET > \"" ++ p ++ "\"\n"
  | WinCmd.callFile p => "CALL \"" ++ p ++ "\"\n"
  | WinCmd.setVarErrorlevel v => "SET " ++ v ++ "=!ERRORLEVEL!\n"
  | WinCmd.exitWithPercentVar v => "EXIT %" ++ v ++ "%"

/-- Windows command-interpreter text of a wrapper program. -/
def renderWinProgram : List WinCmd → String
  | [] => ""
  | c :: rest => renderWinCmd c ++ renderWinProgram rest

/-- The platform-independent steps a wrapper script performs. -/
inductive HookStep where
  | dumpEnv (path : String)
  | invokeHookInShell (path : String)
  | captureExitStatus (v : String)
  | exitWithCaptured (v : String)
deriving DecidableEq, Repr

/-- Abstraction of a POSIX wrapper command to its platform-independent
step. -/
def posixAbstractStep : PosixCmd → Option HookStep
  | PosixCmd.dumpExports p => some (HookStep.dumpEnv p)
  | PosixCmd.sourceFile p => some (HookStep.invokeHookInShell p)
  | PosixCmd.assignLastStatus v => some (HookStep.captureExitStatus v)
  | PosixCmd.exitWithVar v => some (HookStep.exitWithCaptured v)

/-- Abstraction of a Windows wrapper command to its platform-independent
step; the two interpreter directives carry no step. -/
def winAbstractStep : WinCmd → Option HookStep
  | WinCmd.echoOff => none
  | WinCmd.setlocalDelayed => none
  | WinCmd.dumpSet p => some (HookStep.dumpEnv p)
  | WinCmd.callFile p => some (HookStep.invokeHookInShell p)
  | WinCmd.setVarErrorlevel v => some (HookStep.captureExitStatus v)
  | WinCmd.exitWithPercentVar v => some (HookStep.exitWithCaptured v)

theorem posix_render_eq (hook b a : String) :
    posixHookScript hook b a =
      "#!/bin/bash\n" ++ renderPosixProgram (posixProgram hook b a) := by
  simp only [posixHookScript, renderPosixProgram, posixProgram, renderPosixCmd,
    String.append_assoc, String.append_empty]

theorem win_render_eq (hook b a : String) :
    windowsHookScript hook b a = renderWinProgram (winProgram hook b a) := by
  simp only [windowsHookScript, renderWinProgram, winProgram, renderWinCmd,
    String.append_assoc, String.append_empty]

/-- Behaviour of a hook when sourced into the running shell: how it
transforms the exported environment, and its exit status. -/
structure HookBehavior where
  transform : Environment → Environment
  exitCode : Nat

/-- State of the POSIX shell running the wrapper: the exported
environment (what `export -p` prints), the unexported shell variables,
the status of the last command, and the filesystem. -/
structure PosixState where
  exported : Environment
  shellVars : Environment
  lastStatus : Nat
  fs : FS

/-- Text `export -p` writes for an exported environment. -/
def encodeExports (e : Environment) : String :=
  String.intercalate "\n" (e.map (fun q => "declare -x " ++ q.1 ++ "=\"" ++ q.2 ++ "\""))

/-- Value of a shell parameter: unexported shell variables shadow
exported ones; an unset parameter expands to the empty string. -/
def varValue (st : PosixState) (v : String) : String :=
  match Environment.Get st.shellVars v with
  | some s => s
  | none => (Environment.Get st.exported v).getD ""

/-- Big-step run of a POSIX wrapper program: returns the process exit
code and the final state.  Sourcing the hook applies its behaviour to the
exported environment and leaves its exit status in the last-status
register; a redirected dump and a plain assignment each reset that
register; process exit codes are reduced modulo 256 as the shell does. -/
def runPosix (hb : HookBehavior) : List PosixCmd → PosixState → Nat × PosixState
  | [], st => (st.lastStatus % 256, st)
  | PosixCmd.dumpExports p :: rest, st =>
    runPosix hb rest
      { st with fs := Environment.Set st.fs p (encodeExports st.exported), lastStatus := 0 }
  | PosixCmd.sourceFile _ :: rest, st =>
    runPosix hb rest
      { st with exported := hb.transform st.exported, lastStatus := hb.exitCode % 256 }
  | PosixCmd.assignLastStatus v :: rest, st =>
    runPosix hb rest
      { st with shellVars := Environment.Set st.shellVars v (decRep st.lastStatus),
                lastStatus := 0 }
  | PosixCmd.exitWithVar v :: _, st => (decVal (varValue st v) % 256, st)

/-- State of the Windows command interpreter running the wrapper: its
variables (`SET` lists all of them, so the sentinel assignment shows up in
the after dump there), the error level, and the filesystem. -/
structure WinState where
  vars : Environment
  errorlevel : Nat
  fs : FS

/-- Text `SET` writes: one NAME=value line per variable. -/
def encodeSetOutput (e : Environment) : String :=
  String.intercalate "\n" (e.map (fun q => q.1 ++ "=" ++ q.2))

/-- Big-step run of a Windows wrapper program: `CALL` applies the hook's
behaviour and sets the error level; delayed expansion reads that error
level into the sentinel variable; `EXIT %v%` exits with the variable's
numeric value. -/
def runWin (hb : HookBehavior) : List WinCmd → WinState → Nat × WinState
  | [], st => (st.errorlevel % 256, st)
  | WinCmd.echoOff :: rest, st => runWin hb rest st
  | WinCmd.setlocalDelayed :: rest, st => runWin hb rest st
  | WinCmd.dumpSet p :: rest, st =>
    runWin hb rest { st with fs := Environment.Set st.fs p (encodeSetOutput st.vars) }
  | WinCmd.callFile _ :: rest, st =>
    runWin hb rest { st with vars := hb.transform st.vars, errorlevel := hb.exitCode % 256 }
  | WinCmd.setVarErrorlevel v :: rest, st =>
    runWin hb rest { st with vars := Environment.Set st.vars v (decRep st.errorlevel) }
  | WinCmd.exitWithPercentVar v :: _, st =>
    (decVal ((Environment.Get st.vars v).getD "") % 256, st)

/-- File events the constructor performs, in order: temp-file creation
(`shell.TempFileWithExtension`), closing a handle, writing a string,
marking executable (`addExecutePermissiontoFile`), and removal — the last
never occurs in the constructor but is included so its absence is a
statement about the code, not about the vocabulary. -/
inductive Ev where
  | createTemp (path : String)
  | closeFile (path : String)
  | writeString (path : String) (content : String)
  | chmod (path : String)
  | remove (path : String)
deriving DecidableEq, Repr

/-- Outcomes of the constructor's collaborators, which are code outside
the translated file: the three temp-file creations (`shell` package), the
absolute-path resolution (`filepath.Abs`), and the make-executable call
(error message when it fails). -/
structure BuildEnv where
  scriptTmp : Except String String
  beforeTmp : Except String String
  afterTmp : Except String String
  absPath : Except String String
  chmodResult : Option String
deriving Repr

/-- What a constructor run produced: the Go pair return (possibly nil
wrapper, possibly nil error) and the ordered file events performed. -/
structure BuildOutcome where
  wrapper : Option hookScriptWrapper
  err : Option String
  events : List Ev
deriving Repr

/-- The constructor `newHookScriptWrapper`, step for step from the
source: create the script temp file, create and close the before-env temp
file, create and close the after-env temp file, resolve the hook's
absolute path, build the platform script, write it to the script file,
close it, mark it executable.  Temp-file and path-resolution failures
return a nil wrapper with the error (the path error wrapped in the source
message); only the make-executable failure returns the wrapper together
with the error. -/
def newHookScriptWrapper (c : BuildEnv) (goos hookPath : String) : BuildOutcome :=
  match c.scriptTmp with
  | Except.error e => ⟨none, some e, []⟩
  | Except.ok sp =>
    match c.beforeTmp with
    | Except.error e => ⟨none, some e, [Ev.createTemp sp]⟩
    | Except.ok bp =>
      match c.afterTmp with
      | Except.error e =>
        ⟨none, some e, [Ev.createTemp sp, Ev.createTemp bp, Ev.closeFile bp]⟩
      | Except.ok ap =>
        match c.absPath with
        | Except.error e =>
          ⟨none,
           some ("Failed to find absolute path to \"" ++ hookPath ++ "\" (" ++ e ++ ")"),
           [Ev.createTemp sp, Ev.createTemp bp, Ev.closeFile bp,
            Ev.createTemp ap, Ev.closeFile ap]⟩
        | Except.ok absolutePathToHook =>
          let script := hookScript goos absolutePathToHook bp ap
          let w : hookScriptWrapper := ⟨hookPath, sp, bp, ap⟩
          let evs := [Ev.createTemp sp, Ev.createTemp bp, Ev.closeFile bp,
                      Ev.createTemp ap, Ev.closeFile ap,
                      Ev.writeString sp script, Ev.closeFile sp, Ev.chmod sp]
          match c.chmodResult with
          | some e => ⟨some w, some e, evs⟩
          | none => ⟨some w, none, evs⟩

/-- Paths of the temp files a run created. -/
def createdPaths (evs : List Ev) : List String :=
  evs.filterMap (fun e =>
    match e with
    | Ev.createTemp p => some p
    | _ => none)

theorem diff_pred_true (before : Environment) (k v : String) :
    ((match Environment.Get before k with
      | some w => v != w
      | none => true) = true) ↔ Environment.Get before k ≠ some v := by
  rcases hb : Environment.Get before k with _ | w
  · simp
  · simp only [bne_iff_ne, ne_eq, Option.some.injEq]
    exact not_congr ⟨fun h => h.symm, fun h => h.symm⟩

/-- C1: for every pair of decoded snapshots, the diff computed by
`ChangedEnvironment` (strip the sentinel from the after snapshot, then
diff against the before snapshot) contains `k -> v` iff `k` is bound to
`v` in the after snapshot, `k` is absent from the before snapshot or
bound there to a different value, and `k` is not the sentinel exit-status
variable; in particular it never contains the sentinel key, and
`ChangedEnvironment` returns exactly this diff when both dump files are
readable. -/
theorem changedEnvironment_diff_correct (sBefore sAfter k v : String) :
    (Environment.Get
        (Environment.Diff (Environment.Remove (FromExport sAfter) sentinelVar)
          (FromExport sBefore)) k = some v ↔
      (Environment.Get (FromExport sAfter) k = some v ∧
        Environment.Get (FromExport sBefore) k ≠ some v ∧ k ≠ sentinelVar)) ∧
    Environment.Get
        (Environment.Diff (Environment.Remove (FromExport sAfter) sentinelVar)
          (FromExport sBefore)) sentinelVar = none ∧
    ChangedEnvironment [("b", sBefore), ("a", sAfter)]
        ⟨"h", "s", "b", "a"⟩ =
      Except.ok (Environment.Diff (Environment.Remove (FromExport sAfter) sentinelVar)
        (FromExport sBefore)) := by
  have hnd : NodupKeys (FromExport sAfter) := nodupKeys_fromExport sAfter
  have hndr : NodupKeys (Environment.Remove (FromExport sAfter) sentinelVar) :=
    nodupKeys_filter _ _ hnd
  have main : ∀ k1 v1,
      Environment.Get
          (Environment.Diff (Environment.Remove (FromExport sAfter) sentinelVar)
            (FromExport sBefore)) k1 = some v1 ↔
        (Environment.Get (FromExport sAfter) k1 = some v1 ∧
          Environment.Get (FromExport sBefore) k1 ≠ some v1 ∧ k1 ≠ sentinelVar) := by
    intro k1 v1
    unfold Environment.Diff
    rw [get_filter _ _ k1 v1 hndr]
    unfold Environment.Remove
    rw [get_filter _ _ k1 v1 hnd]
    simp only [bne_iff_ne, ne_eq, decide_not]
    rw [show ((fun q : String × String =>
        match Environment.Get (FromExport sBefore) q.1 with
        | some w => q.2 != w
        | none => true) (k1, v1) = true) =
      ((match Environment.Get (FromExport sBefore) k1 with
        | some w => v1 != w
        | none => true) = true) from rfl]
    rw [diff_pred_true]
    simp only [bne_iff_ne, ne_eq]
    constructor
    · rintro ⟨⟨h1, h2⟩, h3⟩
      refine ⟨h1, h3, ?_⟩
      simpa using h2
    · rintro ⟨h1, h2, h3⟩
      exact ⟨⟨h1, by simpa using h3⟩, h2⟩
  refine ⟨main k v, ?_, ?_⟩
  · rcases hs : Environment.Get
        (Environment.Diff (Environment.Remove (FromExport sAfter) sentinelVar)
          (FromExport sBefore)) sentinelVar with _ | v1
    · rfl
    · exact absurd rfl ((main sentinelVar v1).1 hs).2.2
  · rfl

/-- C8: `ChangedEnvironment` fails exactly when one of the two dump files
cannot be read; readable content, however malformed, always decodes to a
snapshot and yields a diff. -/
theorem changedEnvironment_error_iff (fs : FS) (h : hookScriptWrapper) :
    (∃ e, ChangedEnvironment fs h = Except.error e) ↔
      (Environment.Get fs h.beforeEnvPath = none ∨
        Environment.Get fs h.afterEnvPath = none) := by
  unfold ChangedEnvironment ChangedEnvironmentS ioutilReadFile
  rcases hb : Environment.Get fs h.beforeEnvPath with _ | cb
  · simp
  · rcases ha : Environment.Get fs h.afterEnvPath with _ | ca
    · simp [ha]
    · simp [ha]

/-- C10: `ChangedEnvironment` only reads; it leaves the filesystem
unchanged, a second call returns the same result, and the file at the
wrapper's `Path` is untouched. -/
theorem changedEnvironment_frame (fs : FS) (h : hookScriptWrapper) :
    (ChangedEnvironmentS fs h).2 = fs ∧
    ChangedEnvironmentS ((ChangedEnvironmentS fs h).2) h = ChangedEnvironmentS fs h ∧
    Environment.Get ((ChangedEnvironmentS fs h).2) (hookScriptWrapper.Path h) =
      Environment.Get fs (hookScriptWrapper.Path h) := by
  have h2 : (ChangedEnvironmentS fs h).2 = fs := by
    unfold ChangedEnvironmentS ioutilReadFile
    rcases hb : Environment.Get fs h.beforeEnvPath with _ | cb
    · rfl
    · rcases ha : Environment.Get fs h.afterEnvPath with _ | ca
      · simp [ha]
      · simp [ha]
  exact ⟨h2, by rw [h2], by rw [h2]⟩

/-- C7 counterexample: on an empty filesystem every one of the three
removals fails (the removal of the script path alone already does, and
Close runs its three removals on successively identical states), yet the
diagnostics Close surfaces are empty — deletion failures are discarded,
not surfaced. -/
theorem close_surfaces_nothing_cex :
    ((os_Remove ([] : FS) "s").2).isSome = true ∧
    ((os_Remove ([] : FS) "b").2).isSome = true ∧
    ((os_Remove ([] : FS) "a").2).isSome = true ∧
    (Close ([] : FS) ⟨"h", "s", "b", "a"⟩).2 = ([] : List String) := by
  refine ⟨rfl, rfl, rfl, rfl⟩

/-- C7 (amended): `Close` performs a best-effort deletion of all three
temporary files, so that afterwards none of the three paths exist;
deletion failures are never escalated — Close is total and returns no
error — but they are silently discarded rather than surfaced; and the
call is safe on any filesystem state, including one where the hook never
ran and the dump files are already gone. -/
theorem close_removes_all (fs : FS) (h : hookScriptWrapper) :
    Environment.Get (Close fs h).1 h.scriptPath = none ∧
    Environment.Get (Close fs h).1 h.beforeEnvPath = none ∧
    Environment.Get (Close fs h).1 h.afterEnvPath = none ∧
    (Close fs h).2 = [] := by
  unfold Close
  refine ⟨?_, ?_, ?_, rfl⟩
  · exact get_osRemove_none _ _ _ (get_osRemove_none _ _ _ (get_osRemove_self fs h.scriptPath))
  · exact get_osRemove_none _ _ _ (get_osRemove_self _ h.beforeEnvPath)
  · exact get_osRemove_self _ h.afterEnvPath

/-- C4: for every hook path and pair of dump paths the generated POSIX
script is the shebang followed by exactly the five ordered steps — dump
the environment to the before path, invoke the hook through the `.`
(source) builtin, assign `$?` to the sentinel variable, dump the
environment to the after path, and exit with the sentinel variable's
value. -/
theorem posix_script_five_steps (hook b a : String) :
    posixHookScript hook b a =
      "#!/bin/bash\n" ++ renderPosixProgram (posixProgram hook b a) ∧
    posixProgram hook b a =
      [PosixCmd.dumpExports b, PosixCmd.sourceFile hook,
       PosixCmd.assignLastStatus sentinelVar, PosixCmd.dumpExports a,
       PosixCmd.exitWithVar sentinelVar] ∧
    renderPosixCmd (PosixCmd.sourceFile hook) = ". \"" ++ hook ++ "\"\n" := by
  exact ⟨posix_render_eq hook b a, rfl, rfl⟩

/-- C5: script generation takes the windows branch exactly when the
platform identifier is windows and the POSIX branch otherwise; the two
scripts render the two platform programs, and those programs abstract to
the same five platform-independent steps against the same three paths:
dump before, invoke hook in the current shell, capture exit status, dump
after, exit with the captured status. -/
theorem platform_script_equivalence (goos hook b a : String) :
    hookScript goos hook b a =
      (if goos == "windows" then windowsHookScript hook b a
       else posixHookScript hook b a) ∧
    windowsHookScript hook b a = renderWinProgram (winProgram hook b a) ∧
    posixHookScript hook b a =
      "#!/bin/bash\n" ++ renderPosixProgram (posixProgram hook b a) ∧
    (winProgram hook b a).filterMap winAbstractStep =
      (posixProgram hook b a).filterMap posixAbstractStep ∧
    (posixProgram hook b a).filterMap posixAbstractStep =
      [HookStep.dumpEnv b, HookStep.invokeHookInShell hook,
       HookStep.captureExitStatus sentinelVar, HookStep.dumpEnv a,
       HookStep.exitWithCaptured sentinelVar] := by
  refine ⟨rfl, win_render_eq hook b a, posix_render_eq hook b a, ?_, ?_⟩
  · rfl
  · rfl

/-- C3: running the generated wrapper program with a hook of any exit
status below 256 (every process exit status a shell reports) terminates
with exactly that status, on both platforms: the status is captured into
the sentinel variable directly after the hook runs, the later dump does
not disturb it, and the final exit reads the captured value back. -/
theorem wrapper_exit_fidelity (hb : HookBehavior) (hook b a : String)
    (st : PosixState) (wst : WinState) (hlt : hb.exitCode < 256) :
    (runPosix hb (posixProgram hook b a) st).1 = hb.exitCode ∧
    (runWin hb (winProgram hook b a) wst).1 = hb.exitCode := by
  have hmod : hb.exitCode % 256 = hb.exitCode := Nat.mod_eq_of_lt hlt
  constructor
  · simp [posixProgram, runPosix, varValue, get_set_self, decVal_decRep, hmod]
  · simp [winProgram, runWin, get_set_self, decVal_decRep, hmod]

/-- Hook behaviour used by the exit-fidelity witness: changes nothing and
exits 127. -/
def hb127 : HookBehavior := ⟨id, 127⟩

/-- Initial POSIX shell state used by the exit-fidelity witness. -/
def st0 : PosixState := ⟨[], [], 0, []⟩

/-- Initial Windows interpreter state used by the exit-fidelity
witness. -/
def wst0 : WinState := ⟨[], 0, []⟩

theorem wrapper_exit_fidelity_witness :
    hb127.exitCode < 256 ∧
    ((runPosix hb127 (posixProgram "/hook" "b" "a") st0).1 = hb127.exitCode ∧
      (runWin hb127 (winProgram "/hook" "b" "a") wst0).1 = hb127.exitCode) :=
  ⟨by decide, wrapper_exit_fidelity hb127 "/hook" "b" "a" st0 wst0 (by decide)⟩

/-- True exactly on a successful collaborator outcome. -/
def isOkE : Except String String → Bool
  | Except.ok _ => true
  | Except.error _ => false

/-- Collaborator outcomes where creating the before-env temp file fails
after the script temp file was created. -/
def c2env : BuildEnv :=
  ⟨Except.ok "s", Except.error "boom", Except.ok "a", Except.ok "/hook", none⟩

/-- C2 counterexample: when creating the second temp file fails, the
constructor has already created the script temp file, removes nothing,
and returns a nil wrapper with the error — the created file is neither
removed by the constructor nor reachable by the caller. -/
theorem construction_leak_cex :
    ((newHookScriptWrapper c2env "linux" "hook").err).isSome = true ∧
    (newHookScriptWrapper c2env "linux" "hook").wrapper = none ∧
    (newHookScriptWrapper c2env "linux" "hook").events = [Ev.createTemp "s"] :=
  ⟨rfl, rfl, rfl⟩

/-- C2 (amended): on a failed construction the constructor never removes
any file it created; the returned value gives the caller access to the
files (a non-nil wrapper) exactly when every step up to and including
path resolution succeeded — that is, only when the failure is the
make-executable call — and in that case every created file is one of the
three paths the wrapper exposes.  For failures creating the second or
third temp file or resolving the hook path, the wrapper is nil and the
already-created files leak. -/
theorem construction_failure_discipline (c : BuildEnv) (goos hookPath : String)
    (herr : ((newHookScriptWrapper c goos hookPath).err).isSome = true) :
    (∀ p, Ev.remove p ∉ (newHookScriptWrapper c goos hookPath).events) ∧
    (((newHookScriptWrapper c goos hookPath).wrapper).isSome = true ↔
      (isOkE c.scriptTmp = true ∧ isOkE c.beforeTmp = true ∧
        isOkE c.afterTmp = true ∧ isOkE c.absPath = true)) ∧
    (∀ w, (newHookScriptWrapper c goos hookPath).wrapper = some w →
      ∀ p, p ∈ createdPaths (newHookScriptWrapper c goos hookPath).events →
        (p = w.scriptPath ∨ p = w.beforeEnvPath ∨ p = w.afterEnvPath)) := by
  obtain ⟨cs, cb, ca, cabs, cch⟩ := c
  rcases cs with es | sp <;> rcases cb with eb | bp <;> rcases ca with ea | ap <;>
    rcases cabs with eabs | abspath <;> rcases cch with _ | ech <;>
    simp_all [newHookScriptWrapper, createdPaths, isOkE]

/-- Collaborator outcomes where only the make-executable call fails. -/
def c2wEnv : BuildEnv :=
  ⟨Except.ok "s", Except.ok "b", Except.ok "a", Except.ok "/hook", some "denied"⟩

theorem construction_failure_discipline_witness :
    ((newHookScriptWrapper c2wEnv "linux" "hook").err).isSome = true ∧
    ((∀ p, Ev.remove p ∉ (newHookScriptWrapper c2wEnv "linux" "hook").events) ∧
      (((newHookScriptWrapper c2wEnv "linux" "hook").wrapper).isSome = true ↔
        (isOkE c2wEnv.scriptTmp = true ∧ isOkE c2wEnv.beforeTmp = true ∧
          isOkE c2wEnv.afterTmp = true ∧ isOkE c2wEnv.absPath = true)) ∧
      (∀ w, (newHookScriptWrapper c2wEnv "linux" "hook").wrapper = some w →
        ∀ p, p ∈ createdPaths (newHookScriptWrapper c2wEnv "linux" "hook").events →
          (p = w.scriptPath ∨ p = w.beforeEnvPath ∨ p = w.afterEnvPath))) :=
  ⟨rfl, construction_failure_discipline c2wEnv "linux" "hook" rfl⟩

/-- Collaborator outcomes where resolving the hook's absolute path fails
after all three temp files were created. -/
def c6env : BuildEnv :=
  ⟨Except.ok "s", Except.ok "b", Except.ok "a", Except.error "no cwd", none⟩

/-- C6 counterexample: when the hook path cannot be made absolute, the
returned error finds all three temp files already created — not zero
files, as the claim's reading of the attempted files requires. -/
theorem abs_failure_tempfiles_cex :
    ((newHookScriptWrapper c6env "linux" "hook").err).isSome = true ∧
    createdPaths (newHookScriptWrapper c6env "linux" "hook").events = ["s", "b", "a"] :=
  ⟨rfl, rfl⟩

/-- C6 (amended): if the hook path cannot be made absolute, construction
fails with the path-resolution error (wrapping the collaborator's message
in the source's format) and a nil wrapper; at that moment all three
temporary files have already been created — path resolution only runs
after the three creations — and none of them is removed. -/
theorem abs_failure_after_tempfiles (c : BuildEnv) (goos hookPath sp bp ap e : String)
    (h1 : c.scriptTmp = Except.ok sp) (h2 : c.beforeTmp = Except.ok bp)
    (h3 : c.afterTmp = Except.ok ap) (h4 : c.absPath = Except.error e) :
    (newHookScriptWrapper c goos hookPath).err =
      some ("Failed to find absolute path to \"" ++ hookPath ++ "\" (" ++ e ++ ")") ∧
    (newHookScriptWrapper c goos hookPath).wrapper = none ∧
    createdPaths (newHookScriptWrapper c goos hookPath).events = [sp, bp, ap] ∧
    (∀ p, Ev.remove p ∉ (newHookScriptWrapper c goos hookPath).events) := by
  obtain ⟨cs, cb, ca, cabs, cch⟩ := c
  dsimp only at h1 h2 h3 h4
  subst h1
  subst h2
  subst h3
  subst h4
  simp [newHookScriptWrapper, createdPaths]

theorem abs_failure_after_tempfiles_witness :
    c6env.scriptTmp = Except.ok "s" ∧ c6env.beforeTmp = Except.ok "b" ∧
    c6env.afterTmp = Except.ok "a" ∧ c6env.absPath = Except.error "no cwd" ∧
    ((newHookScriptWrapper c6env "linux" "hook").err =
        some ("Failed to find absolute path to \"" ++ "hook" ++ "\" (" ++ "no cwd" ++ ")") ∧
      (newHookScriptWrapper c6env "linux" "hook").wrapper = none ∧
      createdPaths (newHookScriptWrapper c6env "linux" "hook").events = ["s", "b", "a"] ∧
      (∀ p, Ev.remove p ∉ (newHookScriptWrapper c6env "linux" "hook").events)) :=
  ⟨rfl, rfl, rfl, rfl,
    abs_failure_after_tempfiles c6env "linux" "hook" "s" "b" "a" "no cwd" rfl rfl rfl rfl⟩

/-- C9: on a successful construction the make-executable collaborator ran
exactly once, on the script file, as the final event — strictly after the
full script body was written to that file and its handle closed; the
wrapper's `Path` is exactly that script file. -/
theorem chmod_once_after_write_close (c : BuildEnv) (goos hookPath : String)
    (hok : (newHookScriptWrapper c goos hookPath).err = none) :
    ∃ w absolutePathToHook pre,
      (newHookScriptWrapper c goos hookPath).wrapper = some w ∧
      c.absPath = Except.ok absolutePathToHook ∧
      hookScriptWrapper.Path w = w.scriptPath ∧
      (newHookScriptWrapper c goos hookPath).events =
        pre ++ [Ev.writeString w.scriptPath
                  (hookScript goos absolutePathToHook w.beforeEnvPath w.afterEnvPath),
                Ev.closeFile w.scriptPath, Ev.chmod w.scriptPath] ∧
      (∀ ev ∈ pre, ∀ p, ev ≠ Ev.chmod p) := by
  obtain ⟨cs, cb, ca, cabs, cch⟩ := c
  rcases cs with es | sp
  · simp [newHookScriptWrapper] at hok
  · rcases cb with eb | bp
    · simp [newHookScriptWrapper] at hok
    · rcases ca with ea | ap
      · simp [newHookScriptWrapper] at hok
      · rcases cabs with eabs | abspath
        · simp [newHookScriptWrapper] at hok
        · rcases cch with _ | ech
          · refine ⟨⟨hookPath, sp, bp, ap⟩, abspath,
              [Ev.createTemp sp, Ev.createTemp bp, Ev.closeFile bp,
               Ev.createTemp ap, Ev.closeFile ap], rfl, rfl, rfl, rfl, ?_⟩
            intro ev hev p
            simp only [List.mem_cons, List.not_mem_nil, or_false] at hev
            rcases hev with rfl | rfl | rfl | rfl | rfl <;> simp
          · simp [newHookScriptWrapper] at hok

/-- Collaborator outcomes of a fully successful construction. -/
def c9env : BuildEnv :=
  ⟨Except.ok "s", Except.ok "b", Except.ok "a", Except.ok "/hook", none⟩

theorem chmod_once_after_write_close_witness :
    (newHookScriptWrapper c9env "linux" "hook").err = none ∧
    (∃ w absolutePathToHook pre,
      (newHookScriptWrapper c9env "linux" "hook").wrapper = some w ∧
      c9env.absPath = Except.ok absolutePathToHook ∧
      hookScriptWrapper.Path w = w.scriptPath ∧
      (newHookScriptWrapper c9env "linux" "hook").events =
        pre ++ [Ev.writeString w.scriptPath
                  (hookScript "linux" absolutePathToHook w.beforeEnvPath w.afterEnvPath),
                Ev.closeFile w.scriptPath, Ev.chmod w.scriptPath] ∧
      (∀ ev ∈ pre, ∀ p, ev ≠ Ev.chmod p)) :=
  ⟨rfl, chmod_once_after_write_close c9env "linux" "hook" rfl⟩
